import Mathlib

/-!
Verification of the per-tile pansharpening kernel and the pre-flight
validation implemented in `pansharpen/worker.py`.

Sample buffers are modelled band-major: a `Band` is a function from a
flattened pixel index to a sample value in `ℚ` (the source casts integer
raster data to `float32`; exact rational arithmetic models the sample
values the claims quantify over, and the float operations involved —
minima, multiplication by `2 ^ 16`, division by the exact constant
`257.0`, truncating casts — are exact on the integer-valued inputs of
this domain).  A multi-band buffer is a `List Band`; Python's `rgb[i]`
indexing, which raises `IndexError` when `i` is out of range, is
modelled with `Option`.

Functions of this package that live outside `worker.py`
(`pansharpen.utils.pad_window`, `pansharpen.utils.upsample`,
`pansharpen.utils.simple_mask`, `pansharpen.methods.Brovey`,
`pansharpen.utils.check_crs`) and the boundless raster read provided by
the raster-access layer are modelled from the specification; their doc
comments say so explicitly.
-/

namespace RioPansharpen

/-- A single band of a pixel buffer: flattened pixel index to sample value. -/
abbrev Band : Type := ℕ → ℚ

/-- The all-zero band, used as the out-of-range default for band indexing. -/
def zeroBand : Band := fun _ => 0

/-- Value of band `i` at pixel `p` in a band-major buffer. -/
def bandVal (bs : List Band) (i p : ℕ) : ℚ := (bs.getD i zeroBand) p

/-- Source `worker.py` lines 37-39:
`color_mask = np.minimum(rgb[0], np.minimum(rgb[1], rgb[2])) * 2 ** 16`.
`none` models the `IndexError` Python raises when `rgb` has fewer than
three bands. -/
def colorMask (rgb : List Band) : Option Band :=
  match rgb with
  | b0 :: b1 :: b2 :: _ =>
      some (fun p => min (b0 p) (min (b1 p) (b2 p)) * 2 ^ 16)
  | _ => none

/-- Source `worker.py` lines 42-43:
`rgb = np.array([np.minimum(band, color_mask) for band in rgb])`. -/
def applyColorMask (rgb : List Band) : Option (List Band) :=
  (colorMask rgb).map (fun m => rgb.map (fun band => fun p => min (band p) (m p)))

/-- Minimum across all bands of a buffer at one pixel: the quantity the
spec's NodataMasker section describes the mask threshold with. -/
def bandMinAll : List Band → ℕ → ℚ
  | [], _ => 0
  | [b], p => b p
  | b :: rest, p => min (b p) (bandMinAll rest p)

/-- Modelled from the spec: `upsample` lives in `pansharpen.utils`,
which is not among the sources.  Spec §4.2 (Resampler): nearest-neighbour
resampling — every output pixel `p` samples every band at one common
source pixel `σ p`, where `σ` encodes the affine grid correspondence
between the target grid and the padded source grid. -/
def upsample (rgb : List Band) (σ : ℕ → ℕ) : List Band :=
  rgb.map (fun band => fun p => band (σ p))

/-- Clip a sample into `[0, hi]`. -/
def clipQ (hi : ℚ) (x : ℚ) : ℚ := max 0 (min x hi)

/-- Per-pixel brightness of a colour buffer: the weighted sum of the
colour bands, the scalar weight applying to the third band, normalised
by the total weight. -/
def brightness (rgb : List Band) (weight : ℚ) (p : ℕ) : ℚ :=
  (bandVal rgb 0 p + bandVal rgb 1 p + weight * bandVal rgb 2 p) / (2 + weight)

/-- Modelled from the spec: `Brovey` lives in `pansharpen.methods`,
which is not among the sources.  Spec §4.4 (FusionTransform): per-pixel
brightness as the weighted sum of the colour bands; each output band is
the colour band times the ratio `pan / brightness`, a zero-brightness
pixel's ratio falling back to `0`; the result is clipped into the valid
range `[0, maxVal]` of the intermediate output sample type. -/
def Brovey (rgb : List Band) (pan : Band) (weight : ℚ) (maxVal : ℕ) : List Band :=
  rgb.map (fun band => fun p =>
    clipQ (maxVal : ℚ)
      (band p * (if brightness rgb weight p = 0 then 0
                 else pan p / brightness rgb weight p)))

/-- The constant `np.iinfo(np.uint16).max`. -/
def uint16max : ℕ := 2 ^ 16 - 1

/-- The constant `np.iinfo(np.uint8).max`. -/
def uint8max : ℕ := 2 ^ 8 - 1

/-- Source `worker.py` line 55:
`scale = float(np.iinfo(np.uint16).max) / float(np.iinfo(np.uint8).max)`. -/
def scale : ℚ := (uint16max : ℚ) / (uint8max : ℚ)

/-- Casting `.astype(np.uint8)` applied to a nonnegative float sample: truncate toward
zero and reduce modulo `2 ^ 8`. -/
def astypeUint8 (v : ℚ) : ℕ := (⌊v⌋).toNat % 2 ^ 8

/-- Modelled from the spec: `simple_mask` lives in `pansharpen.utils`,
which is not among the sources.  Spec §4.5 (OutputEncoder): the validity
mask is a single band obtained by testing which pixels equal the
all-bands-background colour `ndv`; a pixel equal to the background gets
the invalid sentinel `0`, every other pixel the valid sentinel `255`. -/
def simple_mask (bands : List (ℕ → ℕ)) (ndv : List ℕ) : ℕ → ℕ :=
  fun p => if (bands.zip ndv).all (fun bv => bv.1 p == bv.2) then 0 else 255

/-- Source `worker.py` lines 57-62: the rescaled bands
`(pan_sharpened / scale).astype(np.uint8)` followed by the mask band
`simple_mask(pan_sharpened.astype(np.uint8), (0, 0, 0))`.  Note the mask
is computed from the unrescaled fused samples cast to `uint8`. -/
def encodeOutput (fused : List Band) : List (ℕ → ℕ) :=
  fused.map (fun band => fun p => astypeUint8 (band p / scale)) ++
    [simple_mask (fused.map (fun band => fun p => astypeUint8 (band p))) [0, 0, 0]]

/-- The mask band exactly as claim C2 words it: testing the **rescaled**
output pixels (the bands after division by `scale` and the cast to the
output integer type) against the background colour `(0, 0, 0)`. -/
def specMaskBand (fused : List Band) : ℕ → ℕ :=
  simple_mask (fused.map (fun band => fun p => astypeUint8 (band p / scale))) [0, 0, 0]

/-- Value of band `i` at pixel `p` of an encoded output tile. -/
def outVal (bs : List (ℕ → ℕ)) (i p : ℕ) : ℕ := (bs.getD i (fun _ => 0)) p

/-- Source `worker.py` lines 15-64, the per-tile compute pipeline of
`pansharpen_worker`: nodata masking (lines 37-43), resampling onto the
pan grid (line 48), Brovey fusion (line 52) and output encoding
(lines 54-62).  `σ` is the pixel correspondence realised by `upsample`
from the window affines, `panMax` the maximum of the pan raster's sample
type (`np.iinfo(pan_dtype).max`). -/
def pansharpen_worker (pan : Band) (rgb : List Band) (σ : ℕ → ℕ) (weight : ℚ)
    (panMax : ℕ) : Option (List (ℕ → ℕ)) :=
  (applyColorMask rgb).map (fun masked =>
    encodeOutput (Brovey (upsample masked σ) pan weight panMax))

/-- A rasterio-style window: column offset, row offset, width, height. -/
structure Window where
  col_off : ℤ
  row_off : ℤ
  width : ℤ
  height : ℤ

/-- Modelled from the spec: `pad_window` lives in `pansharpen.utils`,
which is not among the sources.  Spec §4.1 (GeometryResolver): expand a
window by `pad` pixels on all sides (origin shifted by the padding). -/
def pad_window (w : Window) (pad : ℤ) : Window :=
  ⟨w.col_off - pad, w.row_off - pad, w.width + 2 * pad, w.height + 2 * pad⟩

/-- Source `worker.py` line 23: `padding = 2`. -/
def padding : ℤ := 2

/-- Source `worker.py` line 26: `rgb_window = pad_window(rgb_base_window, padding)`. -/
def rgb_window (rgb_base_window : Window) : Window :=
  pad_window rgb_base_window padding

/-- Modelled from the spec: the boundless read of the external raster
reader (spec §6): samples whose raster coordinate falls outside the
raster's `h × w` extent are filled with the fill value `0` instead of the
read being clipped or erroring.  `data` is the raster's in-extent sample
grid; window-relative coordinate `(r, c)` addresses raster coordinate
`(row_off + r, col_off + c)`. -/
def boundless_read (data : ℤ → ℤ → ℚ) (h w : ℤ) (win : Window) : ℤ → ℤ → ℚ :=
  fun r c =>
    if 0 ≤ win.row_off + r ∧ win.row_off + r < h ∧
        0 ≤ win.col_off + c ∧ win.col_off + c < w
    then data (win.row_off + r) (win.col_off + c) else 0

/-- Source `worker.py` lines 32-34: the colour raster is read over the padded
window with `boundless=True`. -/
def worker_read_rgb (data : ℤ → ℤ → ℚ) (h w : ℤ) (base : Window) : ℤ → ℤ → ℚ :=
  boundless_read data h w (rgb_window base)

/-- Source `worker.py` line 81. -/
def bandCountError : String := "Pan band must be 1 band"

/-- Source `worker.py` line 99. -/
def sizeError : String := "Pan band must be larger than RGB bands"

/-- Modelled from the spec: the error of `check_crs`
(`pansharpen.utils`, not among the sources) for irreconcilable
coordinate reference systems. -/
def crsError : String := "CRS mismatch"

/-- Source `worker.py` lines 75-101, the pre-flight validation of `pansharpen`:
the band-count check `profile['count'] > 1` (line 79), the dimension
check `profile['width'] <= r_meta['width'] or profile['height'] <=
r_meta['height']` (lines 96-97), then `check_crs` — modelled from the
spec as a boolean reconcilability flag `crsOk`.  `rCount` is the colour
raster's band count, available in `r_meta` but never inspected. -/
def pansharpen_preflight (panCount panW panH rCount rW rH : ℕ) (crsOk : Bool) :
    Except String Unit :=
  if 1 < panCount then Except.error bandCountError
  else if panW ≤ rW ∨ panH ≤ rH then Except.error sizeError
  else if crsOk then Except.ok () else Except.error crsError

/-- Source `worker.py` lines 75-114: the run processes its tiles (lines
111-114) only after the whole pre-flight validation has succeeded; on a
pre-flight error no tile is processed and nothing is written. -/
def pansharpen_run {α β : Type} (panCount panW panH rCount rW rH : ℕ) (crsOk : Bool)
    (windows : List α) (worker : α → β) : Except String (List β) :=
  match pansharpen_preflight panCount panW panH rCount rW rH crsOk with
  | Except.error e => Except.error e
  | Except.ok _ => Except.ok (windows.map worker)

/-- Constant band with value 1, a concrete sample input. -/
def cOne : Band := fun _ => 1

/-- Constant band with value 0, a concrete nodata input. -/
def cZero : Band := fun _ => 0

/-- Constant band with value 257, a concrete pan input. -/
def cPan : Band := fun _ => 257

/-! Section: Helper lemmas -/

lemma bandVal_map (g : Band → Band) (bs : List Band) (i p : ℕ) (hi : i < bs.length) :
    bandVal (bs.map g) i p = g (bs.getD i zeroBand) p := by
  unfold bandVal
  rw [List.getD_eq_getElem _ _ (by simpa using hi), List.getD_eq_getElem _ _ hi,
    List.getElem_map]

lemma applyColorMask_cons (b0 b1 b2 : Band) (rest : List Band) :
    (applyColorMask (b0 :: b1 :: b2 :: rest)).getD [] =
      (b0 :: b1 :: b2 :: rest).map
        (fun band => fun p =>
          min (band p) (min (b0 p) (min (b1 p) (b2 p)) * 2 ^ 16)) := rfl

lemma bandVal_applyColorMask (b0 b1 b2 : Band) (rest : List Band) (i p : ℕ)
    (hi : i < (b0 :: b1 :: b2 :: rest).length) :
    bandVal ((applyColorMask (b0 :: b1 :: b2 :: rest)).getD []) i p =
      min (bandVal (b0 :: b1 :: b2 :: rest) i p)
        (min (b0 p) (min (b1 p) (b2 p)) * 2 ^ 16) := by
  rw [applyColorMask_cons, bandVal_map _ _ _ _ hi]
  rfl

lemma bandMinAll_le (bs : List Band) (p : ℕ) :
    ∀ i, i < bs.length → bandMinAll bs p ≤ bandVal bs i p := by
  induction bs with
  | nil => intro i hi; simp at hi
  | cons b rest ih =>
      intro i hi
      cases rest with
      | nil =>
          have h0 : i = 0 := by simp at hi; omega
          subst h0
          simp [bandMinAll, bandVal]
      | cons c rest' =>
          cases i with
          | zero =>
              simp only [bandMinAll, bandVal, List.getD_cons_zero]
              exact min_le_left _ _
          | succ j =>
              have hj : j < (c :: rest').length := by
                simpa using Nat.lt_of_succ_lt_succ hi
              have h1 : bandMinAll (b :: c :: rest') p ≤ bandMinAll (c :: rest') p := by
                simp [bandMinAll]
              have h2 := ih j hj
              calc bandMinAll (b :: c :: rest') p ≤ bandMinAll (c :: rest') p := h1
                _ ≤ bandVal (c :: rest') j p := h2
                _ = bandVal (b :: c :: rest') (j + 1) p := by
                    simp [bandVal]

lemma bandMinAll_nonneg (bs : List Band) (p : ℕ)
    (h : ∀ i, i < bs.length → 0 ≤ bandVal bs i p) : 0 ≤ bandMinAll bs p := by
  induction bs with
  | nil => simp [bandMinAll]
  | cons b rest ih =>
      cases rest with
      | nil =>
          simpa [bandMinAll, bandVal] using h 0 (by simp)
      | cons c rest' =>
          have hb : (0 : ℚ) ≤ b p := by
            simpa [bandVal] using h 0 (by simp)
          have hrest : 0 ≤ bandMinAll (c :: rest') p := by
            apply ih
            intro i hi
            simpa [bandVal] using h (i + 1) (by simpa using Nat.succ_lt_succ hi)
          simp only [bandMinAll]
          exact le_min hb hrest

/-! Section: Claim C1 -/

/-- Claim C1, counterexample to the claim as stated: on the four-band
buffer whose bands at pixel 0 are `(1, 1, 1, 0)`, the minimum across all
N = 4 bands is `0`, so the claim demands a masked band-0 value of
`min 1 (0 * 2 ^ 16) = 0`; the code's masked band-0 value is `1`, because
the threshold uses only the first three bands.  In particular band 3
equals the nodata sentinel `0` at this pixel yet the masked band 0 is
nonzero. -/
theorem C1_counterexample :
    bandVal ((applyColorMask [cOne, cOne, cOne, cZero]).getD []) 0 0 = 1 ∧
    bandMinAll [cOne, cOne, cOne, cZero] 0 = 0 ∧
    min (bandVal [cOne, cOne, cOne, cZero] 0 0)
      (bandMinAll [cOne, cOne, cOne, cZero] 0 * 2 ^ 16) = 0 ∧
    bandVal [cOne, cOne, cOne, cZero] 3 0 = 0 ∧
    (1 : ℚ) ≠ 0 := by
  refine ⟨?_, ?_, ?_, ?_, one_ne_zero⟩ <;>
    norm_num [applyColorMask, colorMask, bandMinAll, bandVal, cOne, cZero, zeroBand]

/-- Claim C1 as amended: in the nodata-masking step the per-pixel
threshold is the minimum across the **first three** colour bands times
`2 ^ 16` (for the standard three-band colour buffer this is the minimum
across all bands); every band is clamped to that threshold, and at every
pixel where at least one of the first three bands equals the nodata
sentinel `0` and all samples are nonnegative, all bands of the masked
buffer are `0`. -/
theorem C1_masking (b0 b1 b2 : Band) (rest : List Band) (i p : ℕ)
    (hi : i < (b0 :: b1 :: b2 :: rest).length) :
    bandVal ((applyColorMask (b0 :: b1 :: b2 :: rest)).getD []) i p =
      min (bandVal (b0 :: b1 :: b2 :: rest) i p)
        (min (b0 p) (min (b1 p) (b2 p)) * 2 ^ 16) ∧
    ((∀ j, j < (b0 :: b1 :: b2 :: rest).length →
        0 ≤ bandVal (b0 :: b1 :: b2 :: rest) j p) →
      (b0 p = 0 ∨ b1 p = 0 ∨ b2 p = 0) →
      bandVal ((applyColorMask (b0 :: b1 :: b2 :: rest)).getD []) i p = 0) := by
  constructor
  · exact bandVal_applyColorMask b0 b1 b2 rest i p hi
  · intro hnn hz
    have hb0 : (0 : ℚ) ≤ b0 p := by simpa [bandVal] using hnn 0 (by simp)
    have hb1 : (0 : ℚ) ≤ b1 p := by simpa [bandVal] using hnn 1 (by simp)
    have hb2 : (0 : ℚ) ≤ b2 p := by simpa [bandVal] using hnn 2 (by simp)
    have hm3 : min (b0 p) (min (b1 p) (b2 p)) = 0 := by
      have hge : 0 ≤ min (b0 p) (min (b1 p) (b2 p)) := le_min hb0 (le_min hb1 hb2)
      have hle : min (b0 p) (min (b1 p) (b2 p)) ≤ 0 := by
        rcases hz with h | h | h
        · exact h ▸ min_le_left _ _
        · exact h ▸ le_trans (min_le_right _ _) (min_le_left _ _)
        · exact h ▸ le_trans (min_le_right _ _) (min_le_right _ _)
      linarith
    rw [bandVal_applyColorMask b0 b1 b2 rest i p hi, hm3, zero_mul]
    exact min_eq_right (hnn i hi)

/-- Claim C1, witness: on the three-band buffer with bands `(1, 0, 1)`
at pixel 0, both conjuncts of the amended theorem hold; the clamp zeroes
every band. -/
theorem C1_masking_witness :
    bandVal ((applyColorMask [cOne, cZero, cOne]).getD []) 0 0 =
      min (bandVal [cOne, cZero, cOne] 0 0)
        (min (cOne 0) (min (cZero 0) (cOne 0)) * 2 ^ 16) ∧
    bandVal ((applyColorMask [cOne, cZero, cOne]).getD []) 0 0 = 0 :=
  ⟨(C1_masking cOne cZero cOne [] 0 0 (by norm_num)).1,
   (C1_masking cOne cZero cOne [] 0 0 (by norm_num)).2
     (by intro j hj
         simp only [List.length_cons, List.length_nil] at hj
         interval_cases j <;> norm_num [bandVal, cOne, cZero, zeroBand])
     (Or.inr (Or.inl rfl))⟩

/-! Section: Claim C9 -/

/-- Claim C9: the nodata clamp is the identity on valid pixels — at any
pixel whose minimum across all colour bands is nonzero, provided every
band's sample is an integer-valued sample below `2 ^ 16`, the threshold
(minimum of the first three bands times `2 ^ 16`) is at least `2 ^ 16`,
hence at least as large as every band value, so the masking step leaves
every band unchanged there. -/
theorem C9_clamp_identity (b0 b1 b2 : Band) (rest : List Band) (i p : ℕ)
    (hint : ∀ j, j < (b0 :: b1 :: b2 :: rest).length →
      ∃ n : ℕ, bandVal (b0 :: b1 :: b2 :: rest) j p = (n : ℚ) ∧ n < 2 ^ 16)
    (hmin : bandMinAll (b0 :: b1 :: b2 :: rest) p ≠ 0)
    (hi : i < (b0 :: b1 :: b2 :: rest).length) :
    bandVal ((applyColorMask (b0 :: b1 :: b2 :: rest)).getD []) i p =
      bandVal (b0 :: b1 :: b2 :: rest) i p := by
  have hnn : ∀ j, j < (b0 :: b1 :: b2 :: rest).length →
      0 ≤ bandVal (b0 :: b1 :: b2 :: rest) j p := by
    intro j hj
    obtain ⟨n, hn, -⟩ := hint j hj
    rw [hn]; exact Nat.cast_nonneg n
  have hpos : 0 < bandMinAll (b0 :: b1 :: b2 :: rest) p :=
    lt_of_le_of_ne (bandMinAll_nonneg _ _ hnn) (Ne.symm hmin)
  have hone : ∀ j, j < (b0 :: b1 :: b2 :: rest).length →
      1 ≤ bandVal (b0 :: b1 :: b2 :: rest) j p := by
    intro j hj
    obtain ⟨n, hn, -⟩ := hint j hj
    have hjpos : 0 < bandVal (b0 :: b1 :: b2 :: rest) j p :=
      lt_of_lt_of_le hpos (bandMinAll_le _ _ j hj)
    rw [hn] at hjpos ⊢
    exact_mod_cast Nat.cast_pos.mp hjpos
  have h0 : 1 ≤ b0 p := by simpa [bandVal] using hone 0 (by simp)
  have h1 : 1 ≤ b1 p := by simpa [bandVal] using hone 1 (by simp)
  have h2 : 1 ≤ b2 p := by simpa [bandVal] using hone 2 (by simp)
  have hthr : (2 : ℚ) ^ 16 ≤ min (b0 p) (min (b1 p) (b2 p)) * 2 ^ 16 := by
    have : (1 : ℚ) ≤ min (b0 p) (min (b1 p) (b2 p)) := le_min h0 (le_min h1 h2)
    nlinarith
  obtain ⟨n, hn, hnlt⟩ := hint i hi
  have hval : bandVal (b0 :: b1 :: b2 :: rest) i p <
      min (b0 p) (min (b1 p) (b2 p)) * 2 ^ 16 := by
    rw [hn]
    calc (n : ℚ) < ((2 ^ 16 : ℕ) : ℚ) := by exact_mod_cast hnlt
      _ = (2 : ℚ) ^ 16 := by norm_num
      _ ≤ _ := hthr
  rw [bandVal_applyColorMask b0 b1 b2 rest i p hi]
  exact min_eq_left hval.le

/-- Claim C9, witness: on the three-band buffer with constant bands
`(5, 7, 9)` the masking step returns band 0 unchanged at pixel 0. -/
theorem C9_clamp_identity_witness :
    bandVal ((applyColorMask [fun _ => (5 : ℚ), fun _ => 7, fun _ => 9]).getD []) 0 0 =
      bandVal [fun _ => (5 : ℚ), fun _ => 7, fun _ => 9] 0 0 := by
  apply C9_clamp_identity
  · intro j hj
    simp only [List.length_cons, List.length_nil] at hj
    interval_cases j
    · exact ⟨5, by norm_num [bandVal, zeroBand], by norm_num⟩
    · exact ⟨7, by norm_num [bandVal, zeroBand], by norm_num⟩
    · exact ⟨9, by norm_num [bandVal, zeroBand], by norm_num⟩
  · norm_num [bandMinAll]
  · norm_num

/-! Section: Output-encoder lemmas -/

lemma scale_eq : scale = 257 := by
  norm_num [scale, uint16max, uint8max]

lemma astypeUint8_eval (v : ℚ) (n : ℕ) (hle : (n : ℚ) ≤ v) (hlt : v < n + 1)
    (hn : n < 2 ^ 8) : astypeUint8 v = n := by
  unfold astypeUint8
  have hf : ⌊v⌋ = (n : ℤ) := by
    rw [Int.floor_eq_iff]
    constructor
    · exact_mod_cast hle
    · push_cast
      linarith
  rw [hf]
  simp only [Int.toNat_natCast]
  exact Nat.mod_eq_of_lt (by omega)

lemma length_encodeOutput (fused : List Band) :
    (encodeOutput fused).length = fused.length + 1 := by
  simp [encodeOutput]

lemma outVal_encodeOutput_lt (fused : List Band) (i p : ℕ) (hi : i < fused.length) :
    outVal (encodeOutput fused) i p = astypeUint8 (bandVal fused i p / scale) := by
  unfold encodeOutput outVal
  rw [List.getD_append _ _ _ _ (by simpa using hi),
    List.getD_eq_getElem _ _ (by simpa using hi), List.getElem_map]
  unfold bandVal
  rw [List.getD_eq_getElem _ _ hi]

lemma outVal_encodeOutput_mask (fused : List Band) (p : ℕ) :
    outVal (encodeOutput fused) fused.length p =
      simple_mask (fused.map (fun band => fun q => astypeUint8 (band q))) [0, 0, 0] p := by
  unfold encodeOutput outVal
  rw [List.getD_append_right _ _ _ _ (by simp)]
  simp

lemma simple_mask_three (g0 g1 g2 : ℕ → ℕ) (p : ℕ) :
    simple_mask [g0, g1, g2] [0, 0, 0] p =
      if g0 p = 0 ∧ g1 p = 0 ∧ g2 p = 0 then 0 else 255 := by
  by_cases h0 : g0 p = 0 <;> by_cases h1 : g1 p = 0 <;> by_cases h2 : g2 p = 0 <;>
    simp [simple_mask, h0, h1, h2]

lemma clipQ_nonneg (hi x : ℚ) : 0 ≤ clipQ hi x := le_max_left _ _

lemma clipQ_le (hi x : ℚ) (h : 0 ≤ hi) : clipQ hi x ≤ hi :=
  max_le h (min_le_right _ _)

lemma clipQ_zero (hi : ℚ) (h : 0 ≤ hi) : clipQ hi 0 = 0 := by
  unfold clipQ
  rw [min_eq_left h, max_self]

lemma bandVal_Brovey (rgb : List Band) (pan : Band) (w : ℚ) (mV : ℕ) (i p : ℕ)
    (hi : i < rgb.length) :
    bandVal (Brovey rgb pan w mV) i p =
      clipQ (mV : ℚ)
        (bandVal rgb i p * (if brightness rgb w p = 0 then 0
                            else pan p / brightness rgb w p)) := by
  unfold Brovey
  rw [bandVal_map _ _ _ _ hi]
  rfl

lemma Brovey_bounds (rgb : List Band) (pan : Band) (w : ℚ) (mV : ℕ) (i p : ℕ)
    (hi : i < rgb.length) :
    0 ≤ bandVal (Brovey rgb pan w mV) i p ∧
      bandVal (Brovey rgb pan w mV) i p ≤ (mV : ℚ) := by
  rw [bandVal_Brovey rgb pan w mV i p hi]
  exact ⟨clipQ_nonneg _ _, clipQ_le _ _ (Nat.cast_nonneg mV)⟩

/-! Section: Claim C2 -/

/-- Claim C2, counterexample to the claim as stated: on the fused buffer
whose three bands are constantly `1`, every rescaled output band at
pixel 0 is `astypeUint8 (1 / scale) = 0`, so the rescaled output pixel
**is** the all-bands-background colour `(0, 0, 0)` and the claimed mask
(testing the rescaled pixels, `specMaskBand`) marks it invalid with `0`;
but the code computes the mask from the unrescaled fused samples cast to
`uint8`, which are `(1, 1, 1)`, so the mask band of the returned tile is
`255` there. -/
theorem C2_counterexample :
    outVal (encodeOutput [cOne, cOne, cOne]) 0 0 = 0 ∧
    outVal (encodeOutput [cOne, cOne, cOne]) 1 0 = 0 ∧
    outVal (encodeOutput [cOne, cOne, cOne]) 2 0 = 0 ∧
    specMaskBand [cOne, cOne, cOne] 0 = 0 ∧
    outVal (encodeOutput [cOne, cOne, cOne]) 3 0 = 255 ∧
    (255 : ℕ) ≠ 0 := by
  have hval : astypeUint8 (cOne 0 / scale) = 0 := by
    rw [scale_eq]
    exact astypeUint8_eval _ 0 (by norm_num [cOne]) (by norm_num [cOne]) (by norm_num)
  have hraw : astypeUint8 (cOne 0) = 1 :=
    astypeUint8_eval _ 1 (by norm_num [cOne]) (by norm_num [cOne]) (by norm_num)
  have h0 : ∀ i, i < 3 → outVal (encodeOutput [cOne, cOne, cOne]) i 0 = 0 := by
    intro i hi
    rw [outVal_encodeOutput_lt _ _ _ (by simpa using hi)]
    interval_cases i <;> simpa [bandVal, zeroBand] using hval
  have hmask : outVal (encodeOutput [cOne, cOne, cOne]) 3 0 = 255 := by
    have h3 : [cOne, cOne, cOne].length = 3 := by norm_num
    have := outVal_encodeOutput_mask [cOne, cOne, cOne] 0
    rw [h3] at this
    rw [this]
    simp only [List.map_cons, List.map_nil, simple_mask_three]
    rw [if_neg]
    rw [hraw]
    norm_num
  have hspec : specMaskBand [cOne, cOne, cOne] 0 = 0 := by
    unfold specMaskBand
    simp only [List.map_cons, List.map_nil, simple_mask_three]
    rw [if_pos ⟨hval, hval, hval⟩]
  exact ⟨h0 0 (by norm_num), h0 1 (by norm_num), h0 2 (by norm_num), hspec, hmask,
    by norm_num⟩

/-- Claim C2 as amended: in the output-encoding step the validity mask
band is computed by testing which pixels of the **unrescaled** fused
buffer, cast to the output integer type, equal the all-bands-background
colour `(0, 0, 0)` — not the rescaled output pixels — and this mask is
concatenated after the rescaled N bands as band N + 1 of the returned
tile. -/
theorem C2_encoding (f0 f1 f2 : Band) (p : ℕ) :
    (encodeOutput [f0, f1, f2]).length = 3 + 1 ∧
    outVal (encodeOutput [f0, f1, f2]) 3 p =
      (if astypeUint8 (f0 p) = 0 ∧ astypeUint8 (f1 p) = 0 ∧ astypeUint8 (f2 p) = 0
       then 0 else 255) ∧
    (∀ i, i < 3 → outVal (encodeOutput [f0, f1, f2]) i p =
      astypeUint8 (bandVal [f0, f1, f2] i p / scale)) := by
  refine ⟨by simp [length_encodeOutput], ?_, ?_⟩
  · have h3 : [f0, f1, f2].length = 3 := by norm_num
    have := outVal_encodeOutput_mask [f0, f1, f2] p
    rw [h3] at this
    rw [this]
    simp only [List.map_cons, List.map_nil, simple_mask_three]
  · intro i hi
    exact outVal_encodeOutput_lt _ _ _ (by simpa using hi)

/-- Claim C2, witness: the amended encoding law instantiated on the
constant fused buffer `(257, 257, 257)` at pixel 0. -/
theorem C2_encoding_witness :
    (encodeOutput [cPan, cPan, cPan]).length = 3 + 1 ∧
    outVal (encodeOutput [cPan, cPan, cPan]) 3 0 =
      (if astypeUint8 (cPan 0) = 0 ∧ astypeUint8 (cPan 0) = 0 ∧ astypeUint8 (cPan 0) = 0
       then 0 else 255) ∧
    outVal (encodeOutput [cPan, cPan, cPan]) 0 0 =
      astypeUint8 (bandVal [cPan, cPan, cPan] 0 0 / scale) :=
  ⟨(C2_encoding cPan cPan cPan 0).1,
   (C2_encoding cPan cPan cPan 0).2.1,
   (C2_encoding cPan cPan cPan 0).2.2 0 (by norm_num)⟩

/-! Section: Claim C4 -/

lemma worker_getD_cons (pan : Band) (b0 b1 b2 : Band) (rest : List Band)
    (σ : ℕ → ℕ) (w : ℚ) (mV : ℕ) :
    (pansharpen_worker pan (b0 :: b1 :: b2 :: rest) σ w mV).getD [] =
      encodeOutput
        (Brovey (upsample ((applyColorMask (b0 :: b1 :: b2 :: rest)).getD []) σ)
          pan w mV) := rfl

lemma length_Brovey_upsample (b0 b1 b2 : Band) (rest : List Band) (pan : Band)
    (σ : ℕ → ℕ) (w : ℚ) (mV : ℕ) :
    (Brovey (upsample ((applyColorMask (b0 :: b1 :: b2 :: rest)).getD []) σ)
        pan w mV).length = (b0 :: b1 :: b2 :: rest).length := by
  rw [applyColorMask_cons]
  simp [Brovey, upsample]

/-- Claim C4: every fused sample is divided by the fixed scale factor
`scale = np.iinfo(np.uint16).max / np.iinfo(np.uint8).max = 65535 / 255
= 257` — a closed constant, hence the same for every pixel and tile —
and truncated into the 8-bit output integer type; since the Brovey
output is clipped into `[0, 65535]`, the truncated quotient fits the
8-bit range without wrap-around. -/
theorem C4_rescale (pan : Band) (rgb : List Band) (σ : ℕ → ℕ) (w : ℚ) (i p : ℕ)
    (hi : i < rgb.length) :
    scale = ((2 ^ 16 - 1 : ℕ) : ℚ) / ((2 ^ 8 - 1 : ℕ) : ℚ) ∧
    scale = 257 ∧
    outVal ((pansharpen_worker pan rgb σ w uint16max).getD []) i p =
      (⌊bandVal (Brovey (upsample ((applyColorMask rgb).getD []) σ) pan w uint16max) i p
          / scale⌋).toNat ∧
    outVal ((pansharpen_worker pan rgb σ w uint16max).getD []) i p ≤ uint8max := by
  refine ⟨rfl, scale_eq, ?_⟩
  rcases rgb with _ | ⟨b0, _ | ⟨b1, _ | ⟨b2, rest⟩⟩⟩
  · simp at hi
  · constructor
    · simp [pansharpen_worker, applyColorMask, colorMask, upsample, Brovey, outVal,
        bandVal, zeroBand]
    · simp [pansharpen_worker, applyColorMask, colorMask, outVal, uint8max]
  · constructor
    · simp [pansharpen_worker, applyColorMask, colorMask, upsample, Brovey, outVal,
        bandVal, zeroBand]
    · simp [pansharpen_worker, applyColorMask, colorMask, outVal, uint8max]
  · have hlen := length_Brovey_upsample b0 b1 b2 rest pan σ w uint16max
    have hif : i < (Brovey (upsample ((applyColorMask (b0 :: b1 :: b2 :: rest)).getD [])
        σ) pan w uint16max).length := by rw [hlen]; exact hi
    set v := bandVal
      (Brovey (upsample ((applyColorMask (b0 :: b1 :: b2 :: rest)).getD []) σ)
        pan w uint16max) i p with hv
    obtain ⟨hv0, hv1⟩ :=
      Brovey_bounds (upsample ((applyColorMask (b0 :: b1 :: b2 :: rest)).getD []) σ)
        pan w uint16max i p (by rw [applyColorMask_cons]; simpa [upsample] using hi)
    have hub : v / scale ≤ 255 := by
      rw [scale_eq, div_le_iff₀ (by norm_num : (0 : ℚ) < 257)]
      have : ((uint16max : ℕ) : ℚ) = 65535 := by norm_num [uint16max]
      rw [this] at hv1
      linarith
    have hlb : 0 ≤ v / scale := div_nonneg hv0 (by rw [scale_eq]; norm_num)
    have hfub : ⌊v / scale⌋ ≤ 255 := by
      have h255 : (((255 : ℤ) : ℚ)) = 255 := by norm_num
      calc ⌊v / scale⌋ ≤ ⌊((255 : ℤ) : ℚ)⌋ := Int.floor_le_floor (by rw [h255]; exact hub)
        _ = 255 := Int.floor_intCast 255
    have hflb : 0 ≤ ⌊v / scale⌋ := Int.floor_nonneg.mpr hlb
    have htn : (⌊v / scale⌋).toNat ≤ 255 := Int.toNat_le.mpr (by exact_mod_cast hfub)
    have hval : outVal ((pansharpen_worker pan (b0 :: b1 :: b2 :: rest) σ w
        uint16max).getD []) i p = (⌊v / scale⌋).toNat := by
      rw [worker_getD_cons, outVal_encodeOutput_lt _ _ _ hif, ← hv]
      unfold astypeUint8
      exact Nat.mod_eq_of_lt (by omega)
    refine ⟨hval, ?_⟩
    rw [hval]
    simpa [uint8max] using htn

/-- Claim C4, witness: a concrete run — colour bands constantly
`(100, 100, 100)`, pan constantly `257`, weight 1 — in which the fused
sample `257` is divided by `scale = 257` and truncated to `1`. -/
theorem C4_rescale_witness :
    scale = ((2 ^ 16 - 1 : ℕ) : ℚ) / ((2 ^ 8 - 1 : ℕ) : ℚ) ∧
    scale = 257 ∧
    outVal ((pansharpen_worker cPan [cOne, cOne, cOne] id 1 uint16max).getD []) 0 0 =
      (⌊bandVal (Brovey (upsample ((applyColorMask [cOne, cOne, cOne]).getD []) id)
          cPan 1 uint16max) 0 0 / scale⌋).toNat ∧
    outVal ((pansharpen_worker cPan [cOne, cOne, cOne] id 1 uint16max).getD []) 0 0 ≤
      uint8max :=
  C4_rescale cPan [cOne, cOne, cOne] id 1 0 0 (by norm_num)

/-! Section: Claim C3 -/

lemma bandVal_upsample (bs : List Band) (σ : ℕ → ℕ) (i p : ℕ) (hi : i < bs.length) :
    bandVal (upsample bs σ) i p = bandVal bs i (σ p) := by
  unfold upsample
  rw [bandVal_map _ _ _ _ hi]
  rfl

lemma simple_mask_cons3 (g0 g1 g2 : ℕ → ℕ) (gs : List (ℕ → ℕ)) (p : ℕ) :
    simple_mask (g0 :: g1 :: g2 :: gs) [0, 0, 0] p =
      if g0 p = 0 ∧ g1 p = 0 ∧ g2 p = 0 then 0 else 255 := by
  by_cases h0 : g0 p = 0 <;> by_cases h1 : g1 p = 0 <;> by_cases h2 : g2 p = 0 <;>
    simp [simple_mask, h0, h1, h2]

lemma outVal_encodeOutput_mask_cond (fused : List Band) (p : ℕ)
    (hlen : 3 ≤ fused.length) :
    outVal (encodeOutput fused) fused.length p =
      if astypeUint8 (bandVal fused 0 p) = 0 ∧ astypeUint8 (bandVal fused 1 p) = 0 ∧
          astypeUint8 (bandVal fused 2 p) = 0 then 0 else 255 := by
  rcases fused with _ | ⟨F0, _ | ⟨F1, _ | ⟨F2, gs⟩⟩⟩
  · simp at hlen
  · simp at hlen
  · simp at hlen
  · rw [outVal_encodeOutput_mask]
    simp only [List.map_cons]
    rw [simple_mask_cons3]
    simp [bandVal]

lemma astypeUint8_zero : astypeUint8 0 = 0 :=
  astypeUint8_eval 0 0 (by norm_num) (by norm_num) (by norm_num)

lemma encode_zero_of_all (fused : List Band) (p : ℕ) (hlen : fused.length = 3)
    (h : ∀ i, i < 3 → bandVal fused i p = 0) :
    outVal (encodeOutput fused) 3 p = 0 ∧
      ∀ i, i < 3 → outVal (encodeOutput fused) i p = 0 := by
  constructor
  · have hm := outVal_encodeOutput_mask_cond fused p (by omega)
    rw [hlen] at hm
    rw [hm, if_pos]
    refine ⟨?_, ?_, ?_⟩ <;>
      simp [h 0 (by norm_num), h 1 (by norm_num), h 2 (by norm_num), astypeUint8_zero]
  · intro i hi
    rw [outVal_encodeOutput_lt _ _ _ (by omega), h i hi]
    simpa using astypeUint8_zero

lemma mask3_zero (x y z : ℚ)
    (h : min x (min x (min y z) * 2 ^ 16) = 0 ∨ min y (min x (min y z) * 2 ^ 16) = 0 ∨
      min z (min x (min y z) * 2 ^ 16) = 0) :
    min x (min y z) = 0 := by
  have hmx : min x (min y z) ≤ x := min_le_left _ _
  have hmy : min x (min y z) ≤ y := le_trans (min_le_right _ _) (min_le_left _ _)
  have hmz : min x (min y z) ≤ z := le_trans (min_le_right _ _) (min_le_right _ _)
  rcases h with h | h | h <;> rw [min_eq_iff] at h <;>
    rcases h with ⟨ha, hb⟩ | ⟨ha, hb⟩
  · nlinarith
  · nlinarith
  · nlinarith
  · nlinarith
  · nlinarith
  · nlinarith

/-- Claim C3, counterexample to the claim as stated: on a four-band
colour buffer whose bands are constantly `(1, 1, 1, 0)`, with pan
constantly `257` and weight 1, colour band 3 equals the nodata sentinel
`0` after resampling, yet the returned tile's validity-mask band (the
last band, index 4) is `255` (valid) at that pixel and fused output band
0 is `1`, not the background value `0` — because the nodata threshold
only consults the first three bands. -/
theorem C3_counterexample :
    bandVal (upsample ((applyColorMask [cOne, cOne, cOne, cZero]).getD []) id) 3 0 = 0 ∧
    outVal ((pansharpen_worker cPan [cOne, cOne, cOne, cZero] id 1 uint16max).getD [])
      4 0 = 255 ∧
    outVal ((pansharpen_worker cPan [cOne, cOne, cOne, cZero] id 1 uint16max).getD [])
      0 0 = 1 ∧
    ¬ (outVal ((pansharpen_worker cPan [cOne, cOne, cOne, cZero] id 1
          uint16max).getD []) 4 0 = 0 ∧
       outVal ((pansharpen_worker cPan [cOne, cOne, cOne, cZero] id 1
          uint16max).getD []) 0 0 = 0) := by
  have hmasklen : ((applyColorMask [cOne, cOne, cOne, cZero]).getD []).length = 4 := by
    rw [applyColorMask_cons]; norm_num
  have hup : ∀ j, j < 4 →
      bandVal (upsample ((applyColorMask [cOne, cOne, cOne, cZero]).getD []) id) j 0 =
        bandVal ((applyColorMask [cOne, cOne, cOne, cZero]).getD []) j 0 := by
    intro j hj
    exact bandVal_upsample _ id j 0 (by rw [hmasklen]; omega)
  have hm3 : bandVal ((applyColorMask [cOne, cOne, cOne, cZero]).getD []) 3 0 = 0 := by
    rw [bandVal_applyColorMask cOne cOne cOne [cZero] 3 0 (by norm_num)]
    norm_num [bandVal, cOne, cZero, zeroBand]
  have hm1 : ∀ j, j < 3 →
      bandVal ((applyColorMask [cOne, cOne, cOne, cZero]).getD []) j 0 = 1 := by
    intro j hj
    rw [bandVal_applyColorMask cOne cOne cOne [cZero] j 0 (by simp; omega)]
    interval_cases j <;> norm_num [bandVal, cOne, cZero, zeroBand]
  have ha : bandVal (upsample ((applyColorMask [cOne, cOne, cOne, cZero]).getD []) id)
      3 0 = 0 := by rw [hup 3 (by norm_num)]; exact hm3
  have huplen : (upsample ((applyColorMask [cOne, cOne, cOne, cZero]).getD [])
      id).length = 4 := by simp [upsample, hmasklen]
  have hbr : brightness
      (upsample ((applyColorMask [cOne, cOne, cOne, cZero]).getD []) id) 1 0 = 1 := by
    unfold brightness
    rw [hup 0 (by norm_num), hup 1 (by norm_num), hup 2 (by norm_num),
      hm1 0 (by norm_num), hm1 1 (by norm_num), hm1 2 (by norm_num)]
    norm_num
  have hf0 : bandVal (Brovey
      (upsample ((applyColorMask [cOne, cOne, cOne, cZero]).getD []) id)
      cPan 1 uint16max) 0 0 = 257 := by
    rw [bandVal_Brovey _ _ _ _ _ _ (by omega), hbr, if_neg one_ne_zero,
      hup 0 (by norm_num), hm1 0 (by norm_num)]
    norm_num [cPan, clipQ, uint16max]
  have hflen : (Brovey
      (upsample ((applyColorMask [cOne, cOne, cOne, cZero]).getD []) id)
      cPan 1 uint16max).length = 4 := by simp [Brovey, huplen]
  have hb : outVal ((pansharpen_worker cPan [cOne, cOne, cOne, cZero] id 1
      uint16max).getD []) 4 0 = 255 := by
    rw [worker_getD_cons]
    have hm := outVal_encodeOutput_mask_cond
      (Brovey (upsample ((applyColorMask [cOne, cOne, cOne, cZero]).getD []) id)
        cPan 1 uint16max) 0 (by omega)
    rw [hflen] at hm
    rw [hm, if_neg]
    intro hcon
    have h1 : astypeUint8 (257 : ℚ) = 1 := by
      unfold astypeUint8
      rw [show ⌊(257 : ℚ)⌋ = (257 : ℤ) by norm_num [Int.floor_eq_iff]]
      decide
    rw [hf0, h1] at hcon
    exact one_ne_zero hcon.1
  have hc : outVal ((pansharpen_worker cPan [cOne, cOne, cOne, cZero] id 1
      uint16max).getD []) 0 0 = 1 := by
    rw [worker_getD_cons, outVal_encodeOutput_lt _ _ _ (by omega), hf0, scale_eq]
    norm_num
    exact astypeUint8_eval 1 1 (by norm_num) (by norm_num) (by norm_num)
  refine ⟨ha, hb, hc, ?_⟩
  intro hcon
  rw [hb] at hcon
  exact (by norm_num : (255 : ℕ) ≠ 0) hcon.1

/-- Claim C3 as amended to the three-band colour buffers the kernel
supports: for every pixel at which some colour band equals the nodata
sentinel `0` after resampling, the returned tile's validity-mask band
(band 3) is the invalid sentinel `0` at that pixel and all three fused
output bands are the background value `0` there. -/
theorem C3_nodata (b0 b1 b2 pan : Band) (σ : ℕ → ℕ) (w : ℚ) (mV : ℕ) (p : ℕ)
    (h : ∃ i, i < 3 ∧
      bandVal (upsample ((applyColorMask [b0, b1, b2]).getD []) σ) i p = 0) :
    outVal ((pansharpen_worker pan [b0, b1, b2] σ w mV).getD []) 3 p = 0 ∧
    ∀ i, i < 3 →
      outVal ((pansharpen_worker pan [b0, b1, b2] σ w mV).getD []) i p = 0 := by
  have hmasklen : ((applyColorMask [b0, b1, b2]).getD []).length = 3 := by
    rw [applyColorMask_cons]; norm_num
  obtain ⟨i, hi3, hzero⟩ := h
  rw [bandVal_upsample _ _ _ _ (by rw [hmasklen]; omega),
    bandVal_applyColorMask b0 b1 b2 [] i (σ p) (by norm_num; omega)] at hzero
  have hm : min (b0 (σ p)) (min (b1 (σ p)) (b2 (σ p))) = 0 := by
    apply mask3_zero (b0 (σ p)) (b1 (σ p)) (b2 (σ p))
    interval_cases i
    · exact Or.inl (by simpa [bandVal, zeroBand] using hzero)
    · exact Or.inr (Or.inl (by simpa [bandVal, zeroBand] using hzero))
    · exact Or.inr (Or.inr (by simpa [bandVal, zeroBand] using hzero))
  have hnn0 : 0 ≤ b0 (σ p) := hm ▸ min_le_left _ _
  have hnn1 : 0 ≤ b1 (σ p) := hm ▸ le_trans (min_le_right _ _) (min_le_left _ _)
  have hnn2 : 0 ≤ b2 (σ p) := hm ▸ le_trans (min_le_right _ _) (min_le_right _ _)
  have hU : ∀ j, j < 3 →
      bandVal (upsample ((applyColorMask [b0, b1, b2]).getD []) σ) j p = 0 := by
    intro j hj
    rw [bandVal_upsample _ _ _ _ (by rw [hmasklen]; omega),
      bandVal_applyColorMask b0 b1 b2 [] j (σ p) (by norm_num; omega), hm, zero_mul]
    interval_cases j <;> simp only [bandVal, List.getD_cons_zero, List.getD_cons_succ]
    · exact min_eq_right hnn0
    · exact min_eq_right hnn1
    · exact min_eq_right hnn2
  have hbr : brightness (upsample ((applyColorMask [b0, b1, b2]).getD []) σ) w p = 0 := by
    unfold brightness
    rw [hU 0 (by norm_num), hU 1 (by norm_num), hU 2 (by norm_num)]
    simp
  have huplen : (upsample ((applyColorMask [b0, b1, b2]).getD []) σ).length = 3 := by
    simp [upsample, hmasklen]
  have hfused : ∀ j, j < 3 →
      bandVal (Brovey (upsample ((applyColorMask [b0, b1, b2]).getD []) σ) pan w mV)
        j p = 0 := by
    intro j hj
    rw [bandVal_Brovey _ _ _ _ _ _ (by omega), hU j hj, zero_mul]
    exact clipQ_zero _ (Nat.cast_nonneg mV)
  have hflen : (Brovey (upsample ((applyColorMask [b0, b1, b2]).getD []) σ)
      pan w mV).length = 3 := by simp [Brovey, huplen]
  rw [worker_getD_cons]
  exact encode_zero_of_all _ p hflen hfused

/-- Claim C3, witness: colour bands constantly `(1, 0, 1)` — band 1 is
nodata everywhere, in particular after resampling — so the output tile
at pixel 0 has mask band `0` and fused band 0 equal to `0`. -/
theorem C3_nodata_witness :
    outVal ((pansharpen_worker cPan [cOne, cZero, cOne] id 1 uint16max).getD [])
      3 0 = 0 ∧
    outVal ((pansharpen_worker cPan [cOne, cZero, cOne] id 1 uint16max).getD [])
      0 0 = 0 := by
  have h := C3_nodata cOne cZero cOne cPan id 1 uint16max 0
    ⟨1, by norm_num, by
      rw [bandVal_upsample _ _ _ _ (by rw [applyColorMask_cons]; norm_num),
        bandVal_applyColorMask cOne cZero cOne [] 1 (id 0) (by norm_num)]
      norm_num [bandVal, cOne, cZero, zeroBand]⟩
  exact ⟨h.1, h.2 0 (by norm_num)⟩

/-! Section: Claims C5 and C6 -/

lemma sizeError_ne_bandCountError : sizeError ≠ bandCountError := by decide

lemma preflight_of_band (c pw ph rc rw rh : ℕ) (crs : Bool) (h : 1 < c) :
    pansharpen_preflight c pw ph rc rw rh crs = Except.error bandCountError := by
  unfold pansharpen_preflight
  rw [if_pos h]

/-- Claim C5, counterexample to the claim as stated: a panchromatic
raster with band count `0` does not have exactly 1 band, yet the
pre-flight band-count check `profile['count'] > 1` passes it and no
error is raised: with valid dimensions and CRS the validation succeeds. -/
theorem C5_counterexample :
    pansharpen_preflight 0 2 2 3 1 1 true = Except.ok () ∧ (0 : ℕ) ≠ 1 := by
  constructor
  · rfl
  · norm_num

/-- Claim C5 as amended: the band-count check raises its error if and
only if the panchromatic band count is **greater than 1** (a zero-band
count passes), and when it raises, the run aborts with that error before
any tile is processed. -/
theorem C5_bandcheck (c pw ph rc rw rh : ℕ) (crs : Bool) {α β : Type}
    (ws : List α) (wk : α → β) :
    (pansharpen_preflight c pw ph rc rw rh crs = Except.error bandCountError ↔
      1 < c) ∧
    (1 < c →
      pansharpen_run c pw ph rc rw rh crs ws wk = Except.error bandCountError) := by
  constructor
  · constructor
    · intro h
      by_contra hc
      push_neg at hc
      unfold pansharpen_preflight at h
      rw [if_neg (by omega)] at h
      by_cases hs : pw ≤ rw ∨ ph ≤ rh
      · rw [if_pos hs] at h
        exact sizeError_ne_bandCountError (Except.error.inj h)
      · rw [if_neg hs] at h
        cases crs <;> simp [crsError, bandCountError] at h
    · exact preflight_of_band c pw ph rc rw rh crs
  · intro h
    unfold pansharpen_run
    rw [preflight_of_band c pw ph rc rw rh crs h]

/-- Claim C5, witness: with pan band count 2 the check raises, and the
run returns the band-count error without processing any tile. -/
theorem C5_bandcheck_witness :
    (pansharpen_preflight 2 4 4 3 1 1 true = Except.error bandCountError ↔
      1 < 2) ∧
    pansharpen_run 2 4 4 3 1 1 true [(0 : ℕ)] (fun n => n) =
      Except.error bandCountError :=
  ⟨(C5_bandcheck 2 4 4 3 1 1 true [(0 : ℕ)] (fun n => n)).1,
   (C5_bandcheck 2 4 4 3 1 1 true [(0 : ℕ)] (fun n => n)).2 (by norm_num)⟩

/-- Claim C6: given the band-count check passed, the pre-flight raises
the dimension error if and only if the pan raster's width is not
strictly greater than the colour raster's width or its height is not
strictly greater than the colour raster's height; when both dimensions
strictly exceed the colour raster's, this check passes (the validation
proceeds to the CRS check); and on a dimension failure the run aborts
with that error before any tile is processed. -/
theorem C6_sizecheck (c pw ph rc rw rh : ℕ) (crs : Bool) {α β : Type}
    (ws : List α) (wk : α → β) (hc : c ≤ 1) :
    (pansharpen_preflight c pw ph rc rw rh crs = Except.error sizeError ↔
      (pw ≤ rw ∨ ph ≤ rh)) ∧
    ((rw < pw ∧ rh < ph) →
      pansharpen_preflight c pw ph rc rw rh crs =
        (if crs then Except.ok () else Except.error crsError)) ∧
    ((pw ≤ rw ∨ ph ≤ rh) →
      pansharpen_run c pw ph rc rw rh crs ws wk = Except.error sizeError) := by
  have hnotband : ¬ 1 < c := by omega
  have hpre : ∀ hs : pw ≤ rw ∨ ph ≤ rh,
      pansharpen_preflight c pw ph rc rw rh crs = Except.error sizeError := by
    intro hs
    unfold pansharpen_preflight
    rw [if_neg hnotband, if_pos hs]
  refine ⟨⟨?_, hpre⟩, ?_, ?_⟩
  · intro h
    by_contra hs
    unfold pansharpen_preflight at h
    rw [if_neg hnotband, if_neg hs] at h
    cases crs <;> simp [crsError, sizeError] at h
  · intro hdim
    unfold pansharpen_preflight
    rw [if_neg hnotband, if_neg (by omega)]
  · intro hs
    unfold pansharpen_run
    rw [hpre hs]

/-- Claim C6, witness: pan 4 × 4 against colour 5 × 3 — the width is not
strictly greater, the check raises and the run aborts; and pan 4 × 4
against colour 3 × 3 passes the check. -/
theorem C6_sizecheck_witness :
    (pansharpen_preflight 1 4 4 3 5 3 true = Except.error sizeError ↔
      ((4 : ℕ) ≤ 5 ∨ (4 : ℕ) ≤ 3)) ∧
    pansharpen_run 1 4 4 3 5 3 true [(0 : ℕ)] (fun n => n) =
      Except.error sizeError ∧
    pansharpen_preflight 1 4 4 3 3 3 true =
      (if true then Except.ok () else Except.error crsError) :=
  ⟨(C6_sizecheck 1 4 4 3 5 3 true [(0 : ℕ)] (fun n => n) (by norm_num)).1,
   (C6_sizecheck 1 4 4 3 5 3 true [(0 : ℕ)] (fun n => n) (by norm_num)).2.2
     (Or.inl (by norm_num)),
   (C6_sizecheck 1 4 4 3 3 3 true [(0 : ℕ)] (fun n => n) (by norm_num)).2.1
     ⟨by norm_num, by norm_num⟩⟩

/-! Section: Claim C7 -/

/-- Claim C7: the worker expands the colour-raster base window by the
fixed padding margin `padding = 2` on every side (both offsets shift by
2, both dimensions grow by 2 + 2), and the padded window is read
boundlessly — a window coordinate falling outside the colour raster's
extent yields the fill value `0` instead of a clipped read or an error,
while an in-extent coordinate yields the raster's sample. -/
theorem C7_padding (base : Window) (data : ℤ → ℤ → ℚ) (h w r c : ℤ) :
    padding = 2 ∧
    (rgb_window base).col_off = base.col_off - 2 ∧
    (rgb_window base).row_off = base.row_off - 2 ∧
    (rgb_window base).width = base.width + 2 + 2 ∧
    (rgb_window base).height = base.height + 2 + 2 ∧
    (¬ (0 ≤ (rgb_window base).row_off + r ∧ (rgb_window base).row_off + r < h ∧
        0 ≤ (rgb_window base).col_off + c ∧ (rgb_window base).col_off + c < w) →
      worker_read_rgb data h w base r c = 0) ∧
    ((0 ≤ (rgb_window base).row_off + r ∧ (rgb_window base).row_off + r < h ∧
        0 ≤ (rgb_window base).col_off + c ∧ (rgb_window base).col_off + c < w) →
      worker_read_rgb data h w base r c =
        data ((rgb_window base).row_off + r) ((rgb_window base).col_off + c)) := by
  refine ⟨rfl, rfl, rfl, by simp [rgb_window, pad_window, padding]; ring,
    by simp [rgb_window, pad_window, padding]; ring, ?_, ?_⟩
  · intro hout
    unfold worker_read_rgb boundless_read
    rw [if_neg hout]
  · intro hin
    unfold worker_read_rgb boundless_read
    rw [if_pos hin]

/-- Claim C7, witness: a base window at the raster origin; the padded
window starts at `(-2, -2)`, window coordinate `(0, 0)` addresses raster
coordinate `(-2, -2)`, which is out of extent and reads the fill `0`,
while window coordinate `(2, 2)` addresses raster coordinate `(0, 0)`
and reads the datum there. -/
theorem C7_padding_witness :
    padding = 2 ∧
    (rgb_window ⟨0, 0, 4, 4⟩).col_off = (0 : ℤ) - 2 ∧
    worker_read_rgb (fun _ _ => 9) 10 10 ⟨0, 0, 4, 4⟩ 0 0 = 0 ∧
    worker_read_rgb (fun _ _ => 9) 10 10 ⟨0, 0, 4, 4⟩ 2 2 = 9 :=
  ⟨(C7_padding ⟨0, 0, 4, 4⟩ (fun _ _ => 9) 10 10 0 0).1,
   (C7_padding ⟨0, 0, 4, 4⟩ (fun _ _ => 9) 10 10 0 0).2.1,
   (C7_padding ⟨0, 0, 4, 4⟩ (fun _ _ => 9) 10 10 0 0).2.2.2.2.2.1
     (by norm_num [rgb_window, pad_window, padding]),
   (C7_padding ⟨0, 0, 4, 4⟩ (fun _ _ => 9) 10 10 2 2).2.2.2.2.2.2
     (by norm_num [rgb_window, pad_window, padding])⟩

/-! Section: Claim C8 -/

/-- Claim C8: `pansharpen_worker` is deterministic — two invocations
with equal pan tile data, equal colour tile data, equal resampling grid
correspondence and equal global arguments (weight and pan sample type)
return identical output tiles.  The embedding is a pure function of
these inputs: the source kernel draws on no randomness, time, or shared
mutable state. -/
theorem C8_deterministic (pan pan' : Band) (rgb rgb' : List Band) (σ σ' : ℕ → ℕ)
    (w w' : ℚ) (mV mV' : ℕ) (h1 : pan = pan') (h2 : rgb = rgb') (h3 : σ = σ')
    (h4 : w = w') (h5 : mV = mV') :
    pansharpen_worker pan rgb σ w mV = pansharpen_worker pan' rgb' σ' w' mV' := by
  rw [h1, h2, h3, h4, h5]

/-- Claim C8, witness: determinism instantiated at a concrete input. -/
theorem C8_deterministic_witness :
    pansharpen_worker cPan [cOne, cOne, cOne] id 1 uint16max =
      pansharpen_worker cPan [cOne, cOne, cOne] id 1 uint16max :=
  C8_deterministic cPan cPan [cOne, cOne, cOne] [cOne, cOne, cOne] id id 1 1
    uint16max uint16max rfl rfl rfl rfl rfl

/-! Section: Claim C10 -/

/-- Claim C10: the colour raster's band count is never validated — the
pre-flight result is unchanged under any change of the colour band
count; the per-tile worker fails (the `IndexError` modelled by `none`)
exactly when the colour buffer has fewer than three bands; and for a
colour buffer with three or more bands the nodata mask is unchanged
under any change of the bands beyond the third. -/
theorem C10_color_band_count :
    (∀ c pw ph rc rc' rw rh crs,
      pansharpen_preflight c pw ph rc rw rh crs =
        pansharpen_preflight c pw ph rc' rw rh crs) ∧
    (∀ (pan : Band) (rgb : List Band) (σ : ℕ → ℕ) (w : ℚ) (mV : ℕ),
      pansharpen_worker pan rgb σ w mV = none ↔ rgb.length < 3) ∧
    (∀ (b0 b1 b2 : Band) (rest rest' : List Band),
      colorMask (b0 :: b1 :: b2 :: rest) = colorMask (b0 :: b1 :: b2 :: rest')) := by
  refine ⟨fun _ _ _ _ _ _ _ _ => rfl, ?_, fun _ _ _ _ _ => rfl⟩
  intro pan rgb σ w mV
  rcases rgb with _ | ⟨x, _ | ⟨y, _ | ⟨z, rest⟩⟩⟩ <;>
    simp [pansharpen_worker, applyColorMask, colorMask]

end RioPansharpen
